import Mathlib

/-!
Shallow embedding of the suvidha.js request-orchestration core
(src/suvidha.ts : class Suvidha with fluent builder methods body / query /
params / use, the private parse and assertZodError helpers, and the
handler method that runs the order list, merges context, detects
res.headersSent, invokes the terminal handler and dispatches to the
lifecycle callbacks), together with a model of the default lifecycle
handlers (defaultFormatter and class DefaultHandlers).

Asynchrony in the source is strictly sequential per request (each stage is
awaited before the next starts), so the orchestrator is embedded as a
deterministic function producing an event trace.
-/

namespace SuvidhaModel

/-- Runtime values flowing through the pipeline: request data, thrown
errors (a `zodError` models an instance of ZodError, a `jsError` models a
plain Error with a message), handler outputs. `undefined` is the JavaScript
value `undefined`. -/
inductive Val where
  | undefined : Val
  | num : Int → Val
  | str : String → Val
  | zodError : Nat → Val
  | jsError : String → Val
deriving DecidableEq

/-- Models the runtime test `err instanceof ZodError`. -/
def isZodError : Val → Bool
  | .zodError _ => true
  | _ => false

/-- Simple rendering of a value, standing for JavaScript string
interpolation of an arbitrary value into an error message. -/
def dumpVal : Val → String
  | .undefined => "undefined"
  | .num n => toString n
  | .str s => s
  | .zodError n => "ZodError " ++ toString n
  | .jsError m => "Error: " ++ m

/-- Message of the Error thrown by Suvidha.assertZodError when the
validation layer threw something that is not a ZodError. -/
def internalContractMsg (e : Val) : String :=
  "Suvidha internal error: data validation layer did not throw ZodError. Error Log: "
    ++ dumpVal e

/-- The Error value thrown by Suvidha.assertZodError. -/
def internalContractErr (e : Val) : Val :=
  .jsError (internalContractMsg e)

/-- The TypeError raised at runtime when `useHandlers[ref]` is undefined
and is then invoked as a function. -/
def useFnTypeErr : Val :=
  .jsError "TypeError: useFn is not a function"

/-- The three validated data channels of the request. -/
inductive DataRef where
  | body : DataRef
  | query : DataRef
  | params : DataRef
deriving DecidableEq

/-- Entries of the order list: a validation tag or a middleware index
(`(DataRef | number)[]` in the source). -/
inductive OrderRef where
  | data : DataRef → OrderRef
  | mw : Nat → OrderRef
deriving DecidableEq

/-- A request context: a JavaScript object modelled as an association
list. Later entries arise from later spreads. -/
abbrev Ctx := List (String × Val)

/-- Key lookup on a context, with entries added later taking precedence,
matching the semantics of JavaScript object spread accumulation. -/
def ctxGet : Ctx → String → Option Val
  | [], _ => none
  | (k, v) :: rest, key =>
    match ctxGet rest key with
    | some w => some w
    | none => if k = key then some v else none

/-- The mutable request data (conn.req.body / .query / .params). -/
abbrev Channels := DataRef → Val

/-- Assignment `conn.req[ref] = v`. -/
def setChannel (ch : Channels) (c : DataRef) (v : Val) : Channels :=
  fun c' => if c' = c then v else ch c'

/-- Behaviour of a zod schema applied to a value: parsed result, or a
thrown value (`.error`). -/
abbrev PFun := Val → Except Val Val

/-- Behaviour of one middleware invocation: it may write to the response
(`writes`) and then either returns a partial context or throws. -/
structure MwBehavior where
  writes : Bool
  result : Except Val Ctx

/-- A middleware, reading the request data and the accumulated context. -/
abbrev MwFun := Channels → Ctx → MwBehavior

/-- Behaviour of one lifecycle-callback invocation: it may write to the
response and may throw. -/
structure CbBehavior where
  writes : Bool
  throws : Option Val

/-- A lifecycle callback, as a function of the value handed to it. -/
abbrev CbFun := Val → CbBehavior

/-- Behaviour of the terminal handler: it may write to the response and
either returns a value or throws. -/
structure HBehavior where
  writes : Bool
  result : Except Val Val

/-- The terminal handler, reading the request data and the context. -/
abbrev HFun := Channels → Ctx → HBehavior

/-- The four lifecycle callbacks supplied to the orchestrator
(interface Handlers). -/
structure Handlers where
  onSchemaErr : CbFun
  onErr : CbFun
  onComplete : CbFun
  onPostResponse : CbFun

/-- The pipeline definition built by the fluent calls: schema per channel,
order list, and registered middleware list (class Suvidha fields
schemaMap, order, useHandlers). -/
structure Suvidha where
  schemaMap : DataRef → PFun
  order : List OrderRef
  useHandlers : List MwFun

/-- Models `z.any()`: accepts any input unchanged. -/
def anySchema : PFun := fun v => .ok v

/-- Suvidha.create: fresh pipeline, all schemas default to z.any(),
empty order, no middleware. -/
def Suvidha.create : Suvidha :=
  ⟨fun _ => anySchema, [], []⟩

/-- Replacement of one channel's schema in the schema map. -/
def setSchemaMap (m : DataRef → PFun) (c : DataRef) (p : PFun) : DataRef → PFun :=
  fun c' => if c' = c then p else m c'

/-- Suvidha.body: record the schema and push the tag on the order list. -/
def Suvidha.body (s : Suvidha) (schema : PFun) : Suvidha :=
  { s with schemaMap := setSchemaMap s.schemaMap .body schema
           order := s.order ++ [.data .body] }

/-- Suvidha.query: record the schema and push the tag on the order list. -/
def Suvidha.query (s : Suvidha) (schema : PFun) : Suvidha :=
  { s with schemaMap := setSchemaMap s.schemaMap .query schema
           order := s.order ++ [.data .query] }

/-- Suvidha.params: record the schema and push the tag on the order list. -/
def Suvidha.params (s : Suvidha) (schema : PFun) : Suvidha :=
  { s with schemaMap := setSchemaMap s.schemaMap .params schema
           order := s.order ++ [.data .params] }

/-- Suvidha.use: push the index of the middleware about to be registered
on the order list, then append the middleware. -/
def Suvidha.use (s : Suvidha) (m : MwFun) : Suvidha :=
  { s with order := s.order ++ [.mw s.useHandlers.length]
           useHandlers := s.useHandlers ++ [m] }

/-- One fluent builder call. -/
inductive BuildStep where
  | body : PFun → BuildStep
  | query : PFun → BuildStep
  | params : PFun → BuildStep
  | use : MwFun → BuildStep

/-- Apply one fluent call to the pipeline under construction. -/
def applyStep (s : Suvidha) : BuildStep → Suvidha
  | .body p => s.body p
  | .query p => s.query p
  | .params p => s.params p
  | .use m => s.use m

/-- A pipeline built by a sequence of fluent calls starting from
Suvidha.create. -/
def build (steps : List BuildStep) : Suvidha :=
  steps.foldl applyStep Suvidha.create

/-- Observable events of one request run, in execution order: stage
executions and lifecycle-callback invocations (with the value passed). -/
inductive Event where
  | validate : DataRef → Event
  | runMw : Nat → Event
  | runTerminal : Event
  | cbSchemaErr : Val → Event
  | cbErr : Val → Event
  | cbComplete : Val → Event
  | cbPostResponse : Val → Event
deriving DecidableEq

/-- Outcome of Suvidha.parse for one channel: trace of events, response
flag, the channel value afterwards, and the thrown value if the call
threw. -/
structure ParseOut where
  trace : List Event
  sent : Bool
  value : Val
  thrown : Option Val

/-- Suvidha.parse: apply the channel's schema; on success assign the
parsed value. On a thrown ZodError invoke onSchemaErr and, if the
response is still not initiated afterwards, re-throw the original error.
On a thrown non-ZodError, assertZodError raises the internal contract
Error before onSchemaErr can run. -/
def Suvidha.parse (s : Suvidha) (hs : Handlers) (c : DataRef) (raw : Val)
    (sent : Bool) : ParseOut :=
  match s.schemaMap c raw with
  | .ok v => ⟨[.validate c], sent, v, none⟩
  | .error e =>
    if isZodError e then
      let cb := hs.onSchemaErr e
      let sent1 := sent || cb.writes
      match cb.throws with
      | some e1 => ⟨[.validate c, .cbSchemaErr e], sent1, raw, some e1⟩
      | none =>
        if sent1 then ⟨[.validate c, .cbSchemaErr e], sent1, raw, none⟩
        else ⟨[.validate c, .cbSchemaErr e], sent1, raw, some e⟩
    else ⟨[.validate c], sent, raw, some (internalContractErr e)⟩

/-- Result of running order entries: loop finished normally, stopped
because the response was initiated (the short-circuit return), or an
exception escaped towards the catch clause. -/
inductive LoopResult where
  | completed : LoopResult
  | shortCircuit : LoopResult
  | threw : Val → LoopResult
deriving DecidableEq

/-- State after running zero or more order entries. -/
structure LoopOut where
  trace : List Event
  sent : Bool
  channels : Channels
  context : Ctx
  result : LoopResult

/-- One iteration of the order loop: run the entry (validation or
middleware), then check res.headersSent; `completed` here means the loop
may continue with the next entry. -/
def runStep (hs : Handlers) (s : Suvidha) (e : OrderRef) (ch : Channels)
    (ctx : Ctx) (sent : Bool) : LoopOut :=
  match e with
  | .data c =>
    let p := s.parse hs c (ch c) sent
    let ch1 := setChannel ch c p.value
    match p.thrown with
    | some ex => ⟨p.trace, p.sent, ch1, ctx, .threw ex⟩
    | none =>
      if p.sent then ⟨p.trace, p.sent, ch1, ctx, .shortCircuit⟩
      else ⟨p.trace, p.sent, ch1, ctx, .completed⟩
  | .mw i =>
    match s.useHandlers.get? i with
    | none => ⟨[], sent, ch, ctx, .threw useFnTypeErr⟩
    | some f =>
      let b := f ch ctx
      let sent1 := sent || b.writes
      match b.result with
      | .error ex => ⟨[.runMw i], sent1, ch, ctx, .threw ex⟩
      | .ok part =>
        if sent1 then ⟨[.runMw i], sent1, ch, ctx ++ part, .shortCircuit⟩
        else ⟨[.runMw i], sent1, ch, ctx ++ part, .completed⟩

/-- The `for (const ref of this.order)` loop of Suvidha.handler. -/
def runLoop (hs : Handlers) (s : Suvidha) :
    List OrderRef → Channels → Ctx → Bool → LoopOut
  | [], ch, ctx, sent => ⟨[], sent, ch, ctx, .completed⟩
  | e :: rest, ch, ctx, sent =>
    let st := runStep hs s e ch ctx sent
    match st.result with
    | .completed =>
      let out := runLoop hs s rest st.channels st.context st.sent
      ⟨st.trace ++ out.trace, out.sent, out.channels, out.context, out.result⟩
    | _ => st

/-- Final fate of the promise returned by the request handler: resolved,
or rejected with an error nothing caught. -/
inductive Final where
  | normal : Final
  | uncaught : Val → Final
deriving DecidableEq

/-- Observable outcome of one full request run. -/
structure RunOut where
  trace : List Event
  sent : Bool
  final : Final
deriving DecidableEq

/-- The catch clause of Suvidha.handler: route the caught value to
onPostResponse when the response is already initiated, to onErr
otherwise; a throw from that callback is not caught. -/
def catchClause (hs : Handlers) (e : Val) (sent : Bool)
    (trace : List Event) : RunOut :=
  if sent then
    let cb := hs.onPostResponse e
    let tr := trace ++ [.cbPostResponse e]
    match cb.throws with
    | some e1 => ⟨tr, sent || cb.writes, .uncaught e1⟩
    | none => ⟨tr, sent || cb.writes, .normal⟩
  else
    let cb := hs.onErr e
    let tr := trace ++ [.cbErr e]
    match cb.throws with
    | some e1 => ⟨tr, sent || cb.writes, .uncaught e1⟩
    | none => ⟨tr, sent || cb.writes, .normal⟩

/-- Suvidha.handler applied to one request: initialize an empty context,
run the order loop, short-circuit when the response is initiated, run the
terminal handler, then dispatch on res.headersSent and the handler
outcome; onPostResponse and onComplete are invoked inside the try block,
so their throws fall into the catch clause. -/
def runRequest (hs : Handlers) (s : Suvidha) (h : HFun) (ch : Channels) :
    RunOut :=
  let lo := runLoop hs s s.order ch [] false
  match lo.result with
  | .shortCircuit => ⟨lo.trace, lo.sent, .normal⟩
  | .threw e => catchClause hs e lo.sent lo.trace
  | .completed =>
    let hb := h lo.channels lo.context
    let sent1 := lo.sent || hb.writes
    let tr := lo.trace ++ [.runTerminal]
    match hb.result with
    | .error e => catchClause hs e sent1 tr
    | .ok output =>
      if sent1 then
        if output = .undefined then ⟨tr, sent1, .normal⟩
        else
          let cb := hs.onPostResponse output
          let sent2 := sent1 || cb.writes
          let tr2 := tr ++ [.cbPostResponse output]
          match cb.throws with
          | some e1 => catchClause hs e1 sent2 tr2
          | none => ⟨tr2, sent2, .normal⟩
      else
        let cb := hs.onComplete output
        let sent2 := sent1 || cb.writes
        let tr2 := tr ++ [.cbComplete output]
        match cb.throws with
        | some e1 => catchClause hs e1 sent2 tr2
        | none => ⟨tr2, sent2, .normal⟩

/-- Whether an event is a lifecycle-callback invocation. -/
def isCallbackEvent : Event → Bool
  | .cbSchemaErr _ => true
  | .cbErr _ => true
  | .cbComplete _ => true
  | .cbPostResponse _ => true
  | _ => false

/-- Number of lifecycle-callback invocations in a trace. -/
def cbCount (tr : List Event) : Nat :=
  (tr.filter isCallbackEvent).length

/-- Whether an event is the execution of an order entry. -/
def isStageEvent : Event → Bool
  | .validate _ => true
  | .runMw _ => true
  | _ => false

/-- The stage executions of a trace, in order. -/
def stageEvents (tr : List Event) : List Event :=
  tr.filter isStageEvent

/-- The stage event an order entry gives rise to when executed. -/
def entryEvent : OrderRef → Event
  | .data c => .validate c
  | .mw i => .runMw i

/-- Events that the order loop itself can emit. -/
def loopEvent : Event → Bool
  | .validate _ => true
  | .runMw _ => true
  | .cbSchemaErr _ => true
  | _ => false

/-- A normal run, under which the claimed exactly-once dispatch does
hold: the loop invokes no callback (no validation failure handled inside
it), the loop does not short-circuit, and after the terminal handler the
dispatched callback neither is skipped (response initiated and undefined
returned) nor itself throws back into the catch clause. -/
def postLoopNormal (hs : Handlers) (hb : HBehavior) : Bool :=
  match hb.result with
  | .error _ => true
  | .ok v =>
    if hb.writes then
      v != Val.undefined && (hs.onPostResponse v).throws == none
    else (hs.onComplete v).throws == none

/-- Decidable description of the runs for which dispatch is exactly
once. -/
def normalRun (hs : Handlers) (s : Suvidha) (h : HFun) (ch : Channels) :
    Bool :=
  let lo := runLoop hs s s.order ch [] false
  cbCount lo.trace == 0 &&
    match lo.result with
    | .shortCircuit => false
    | .threw _ => true
    | .completed => postLoopNormal hs (h lo.channels lo.context)

/-- Last-wins lookup over a sequence of partial contexts: the value for a
key is the one from the last partial object that carries it. -/
def lastWins : List Ctx → String → Option Val
  | [], _ => none
  | p :: rest, k =>
    match lastWins rest k with
    | some v => some v
    | none => ctxGet p k

/-- A middleware that writes nothing to the response and returns a fixed
partial context. -/
def constMw (part : Ctx) : MwFun := fun _ _ => ⟨false, .ok part⟩

/-- Concrete fixtures used to instantiate the theorems on closed runs. -/
def mwWrite : MwFun := fun _ _ => ⟨true, .ok []⟩

/-- A middleware that neither writes nor contributes context. -/
def mwNop : MwFun := fun _ _ => ⟨false, .ok []⟩

/-- Callbacks that never write and never throw. -/
def hsQuiet : Handlers :=
  ⟨fun _ => ⟨false, none⟩, fun _ => ⟨false, none⟩,
    fun _ => ⟨false, none⟩, fun _ => ⟨false, none⟩⟩

/-- Callbacks that write and never throw (onSchemaErr completes the
response, as its contract expects). -/
def hsWriting : Handlers :=
  ⟨fun _ => ⟨true, none⟩, fun _ => ⟨true, none⟩,
    fun _ => ⟨true, none⟩, fun _ => ⟨false, none⟩⟩

/-- Callbacks where onSchemaErr throws without writing (the default
handlers do exactly this: they throw Http.BadRequest), the rest quiet. -/
def hsSchemaThrows : Handlers :=
  ⟨fun _ => ⟨false, some (.str "boom")⟩, fun _ => ⟨false, none⟩,
    fun _ => ⟨false, none⟩, fun _ => ⟨false, none⟩⟩

/-- A schema that always fails with a ZodError. -/
def zodFailSchema : PFun := fun _ => .error (.zodError 0)

/-- A schema that throws a value that is not a ZodError. -/
def nonZodFailSchema : PFun := fun _ => .error (.str "not a zod error")

/-- A terminal handler returning 1 without writing. -/
def hReturn1 : HFun := fun _ _ => ⟨false, .ok (.num 1)⟩

/-- A terminal handler that writes the response and then returns 2. -/
def hWriteReturn2 : HFun := fun _ _ => ⟨true, .ok (.num 2)⟩

/-- A terminal handler that writes the response and returns undefined. -/
def hWriteUndef : HFun := fun _ _ => ⟨true, .ok .undefined⟩

/-- A terminal handler that writes the response and then throws. -/
def hWriteThrow : HFun := fun _ _ => ⟨true, .error (.str "late")⟩

/-- All request data starts as undefined. -/
def chZero : Channels := fun _ => .undefined

/-- Pipeline with a response-writing middleware followed by another
middleware. -/
def sC2 : Suvidha := build [.use mwWrite, .use mwNop]

/-- An interleaved call sequence: body, use, params, use. -/
def stepsC3 : List BuildStep :=
  [.body anySchema, .use mwNop, .params anySchema, .use mwNop]

/-- Call sequence with two use calls around a validation call. -/
def stepsC10 : List BuildStep :=
  [.use mwNop, .body anySchema, .use mwNop]

/-- Pipeline whose body validation always fails with a ZodError. -/
def sZodFail : Suvidha := build [.body zodFailSchema, .use mwNop]

/-- The three-middleware pipeline of the context-accumulation example. -/
def partsExample : List Ctx :=
  [[("a", .num 1)], [("b", .num 2)], [("a", .num 3)]]

/-- The middleware functions registered by a fluent call sequence, in
registration order. -/
def registeredMws : List BuildStep → List MwFun
  | [] => []
  | .use m :: r => m :: registeredMws r
  | .body _ :: r => registeredMws r
  | .query _ :: r => registeredMws r
  | .params _ :: r => registeredMws r

/-- The pipeline declaring one use call per partial context, each
middleware returning its fixed partial context. -/
def mwPipeline (parts : List Ctx) : Suvidha :=
  build (parts.map fun p => BuildStep.use (constMw p))

/-- Pipeline whose body validation throws a non-ZodError value. -/
def sNonZod : Suvidha := build [.body nonZodFailSchema]

/-- Callbacks where onErr throws, the rest quiet. -/
def hsErrThrows : Handlers :=
  ⟨fun _ => ⟨false, none⟩, fun _ => ⟨false, some (.str "bang")⟩,
    fun _ => ⟨false, none⟩, fun _ => ⟨false, none⟩⟩

/-- Number of middleware registrations in a fluent call sequence. -/
def countUses : List BuildStep → Nat
  | [] => 0
  | .use _ :: r => countUses r + 1
  | .body _ :: r => countUses r
  | .query _ :: r => countUses r
  | .params _ :: r => countUses r

/-- Declaration order of the stages of a fluent call sequence, written
independently of the builder: each call contributes its tag at its own
position, a use call contributing the count of use calls before it. -/
def declaredRefs : List BuildStep → Nat → List OrderRef
  | [], _ => []
  | .body _ :: r, n => .data .body :: declaredRefs r n
  | .query _ :: r, n => .data .query :: declaredRefs r n
  | .params _ :: r, n => .data .params :: declaredRefs r n
  | .use _ :: r, n => .mw n :: declaredRefs r (n + 1)


end SuvidhaModel

namespace DefaultHandlersModel

/-!
Model of the default lifecycle handlers (defaultFormatter and class
DefaultHandlers in defaultHandlers.ts). Only onErr and onComplete write a
response; onSchemaErr throws Http.BadRequest and onPostResponse only
logs. Each emission is a pair of the numeric status set on the response
and the envelope sent as the body, both produced from the same status
code through the formatter.
-/

/-- The three envelope status categories. -/
inductive RStatus where
  | success : RStatus
  | fail : RStatus
  | error : RStatus
deriving DecidableEq

/-- mapToStatus inside defaultFormatter: 4xx to fail, 500 and above to
error, everything else to success. -/
def mapToStatus (statusCode : Nat) : RStatus :=
  if 400 ≤ statusCode ∧ statusCode < 500 then .fail
  else if 500 ≤ statusCode then .error
  else .success

/-- The response envelope: status category, data (none models null) and
meta. -/
structure Envelope where
  status : RStatus
  data : Option String
  meta : String
deriving DecidableEq

/-- defaultFormatter: build the envelope from the status code, body and
meta. -/
def defaultFormatter (status : Nat) (body : Option String) (meta : String) :
    Envelope :=
  ⟨mapToStatus status, body, meta⟩

/-- Values the default handlers inspect: an Http.End outcome object
(status, body, meta), a protocol-shaped plain object, an ordinary
serializable value, undefined, or a value of a type the success handler
refuses (function, symbol, bigint). -/
inductive DVal where
  | httpEnd : Nat → String → String → DVal
  | protoObj : Nat → String → String → DVal
  | prim : String → DVal
  | undefined : DVal
  | nonSerializable : DVal
deriving DecidableEq

/-- DefaultHandlers.onErr: an Http.End error is unwrapped and formatted at
its own status; anything else is formatted at 500. Always emits. -/
def onErrEmit (err : DVal) : Option (Nat × Envelope) :=
  match err with
  | .httpEnd st b m => some (st, defaultFormatter st (some b) m)
  | _ => some (500, defaultFormatter 500 (some "Internal Server Error") "")

/-- DefaultHandlers.onComplete: protocol-shaped objects are wrapped into
Http.End and, like Http.End values, formatted at their own status; plain
serializable values and undefined are formatted at 200 (undefined becomes
null); function-, symbol- and bigint-typed values are rejected by
throwing, emitting nothing. -/
def onCompleteEmit (output : DVal) : Option (Nat × Envelope) :=
  match output with
  | .httpEnd st b m => some (st, defaultFormatter st (some b) m)
  | .protoObj st b m => some (st, defaultFormatter st (some b) m)
  | .prim s => some (200, defaultFormatter 200 (some s) "")
  | .undefined => some (200, defaultFormatter 200 none "")
  | .nonSerializable => none

/-- isClientErr of the snapshot DefaultHandlers class: a 4xx status. -/
def isClientErr (statusCode : Nat) : Bool :=
  decide (400 ≤ statusCode) && decide (statusCode < 500)

/-- The snapshot DefaultHandlers.onErr that hand-builds the envelope with
the ternary isClientErr(statusCode) picking the string directly: an
HttpErr or Http.End outcome is emitted at its own status with category
error when isClientErr and fail otherwise, and any other thrown value is
emitted at 500 with category fail. -/
def legacyOnErrEmit (err : DVal) : Option (Nat × Envelope) :=
  match err with
  | .httpEnd st b m =>
    some (st, ⟨if isClientErr st then .error else .fail, some b, m⟩)
  | _ => some (500, ⟨.fail, some "Internal Server Error", ""⟩)

end DefaultHandlersModel

namespace SuvidhaModel

/-! Basic lemmas about traces and the order loop. -/

/-- Stage-filter values on each event constructor. -/
@[simp] theorem isStageEvent_validate (c : DataRef) :
    isStageEvent (.validate c) = true := rfl

@[simp] theorem isStageEvent_runMw (i : Nat) :
    isStageEvent (.runMw i) = true := rfl

@[simp] theorem isStageEvent_runTerminal :
    isStageEvent .runTerminal = false := rfl

@[simp] theorem isStageEvent_cbSchemaErr (v : Val) :
    isStageEvent (.cbSchemaErr v) = false := rfl

@[simp] theorem isStageEvent_cbErr (v : Val) :
    isStageEvent (.cbErr v) = false := rfl

@[simp] theorem isStageEvent_cbComplete (v : Val) :
    isStageEvent (.cbComplete v) = false := rfl

@[simp] theorem isStageEvent_cbPostResponse (v : Val) :
    isStageEvent (.cbPostResponse v) = false := rfl

/-- Callback-filter values on each event constructor. -/
@[simp] theorem isCallbackEvent_validate (c : DataRef) :
    isCallbackEvent (.validate c) = false := rfl

@[simp] theorem isCallbackEvent_runMw (i : Nat) :
    isCallbackEvent (.runMw i) = false := rfl

@[simp] theorem isCallbackEvent_runTerminal :
    isCallbackEvent .runTerminal = false := rfl

@[simp] theorem isCallbackEvent_cbSchemaErr (v : Val) :
    isCallbackEvent (.cbSchemaErr v) = true := rfl

@[simp] theorem isCallbackEvent_cbErr (v : Val) :
    isCallbackEvent (.cbErr v) = true := rfl

@[simp] theorem isCallbackEvent_cbComplete (v : Val) :
    isCallbackEvent (.cbComplete v) = true := rfl

@[simp] theorem isCallbackEvent_cbPostResponse (v : Val) :
    isCallbackEvent (.cbPostResponse v) = true := rfl

@[simp] theorem cbCount_nil : cbCount [] = 0 := rfl

@[simp] theorem cbCount_cons (e : Event) (tr : List Event) :
    cbCount (e :: tr) =
      (if isCallbackEvent e = true then 1 else 0) + cbCount tr := by
  unfold cbCount
  rw [List.filter_cons]
  split <;> simp [Nat.add_comm]

theorem cbCount_append (a b : List Event) :
    cbCount (a ++ b) = cbCount a + cbCount b := by
  simp [cbCount, List.filter_append]

theorem stageEvents_append (a b : List Event) :
    stageEvents (a ++ b) = stageEvents a ++ stageEvents b := by
  simp [stageEvents, List.filter_append]

/-- A single loop iteration invokes at most one callback. -/
theorem runStep_cbCount_le (hs : Handlers) (s : Suvidha) (e : OrderRef)
    (ch : Channels) (ctx : Ctx) (sent : Bool) :
    cbCount (runStep hs s e ch ctx sent).trace ≤ 1 := by
  unfold runStep Suvidha.parse
  rcases e with c | i <;> dsimp only <;> (repeat' split) <;>
    simp [cbCount, isCallbackEvent]

/-- A loop iteration that lets the loop continue invoked no callback,
left the response untouched, entered with the response not yet initiated,
and executed exactly its own entry. -/
theorem runStep_completed (hs : Handlers) (s : Suvidha) (e : OrderRef)
    (ch : Channels) (ctx : Ctx) (sent : Bool)
    (h : (runStep hs s e ch ctx sent).result = .completed) :
    cbCount (runStep hs s e ch ctx sent).trace = 0 ∧
      (runStep hs s e ch ctx sent).sent = false ∧ sent = false ∧
      (runStep hs s e ch ctx sent).trace = [entryEvent e] := by
  unfold runStep Suvidha.parse at h ⊢
  rcases e with c | i <;> dsimp only at h ⊢ <;> (repeat' split at h) <;>
    simp_all [cbCount, isCallbackEvent, entryEvent]

/-- Every event a loop iteration emits is a stage execution or a
validation-failure callback. -/
theorem runStep_loopEvent (hs : Handlers) (s : Suvidha) (e : OrderRef)
    (ch : Channels) (ctx : Ctx) (sent : Bool) :
    ∀ ev ∈ (runStep hs s e ch ctx sent).trace, loopEvent ev = true := by
  unfold runStep Suvidha.parse
  rcases e with c | i <;> dsimp only <;> (repeat' split) <;>
    simp [loopEvent]

/-- The order loop invokes at most one callback, and none at all when it
runs to completion. -/
theorem runLoop_cbCount (hs : Handlers) (s : Suvidha) :
    ∀ (entries : List OrderRef) (ch : Channels) (ctx : Ctx) (sent : Bool),
      cbCount (runLoop hs s entries ch ctx sent).trace ≤ 1 ∧
        ((runLoop hs s entries ch ctx sent).result = .completed →
          cbCount (runLoop hs s entries ch ctx sent).trace = 0) := by
  intro entries
  induction entries with
  | nil => intro ch ctx sent; simp [runLoop, cbCount]
  | cons e rest ih =>
    intro ch ctx sent
    simp only [runLoop]
    rcases hres : (runStep hs s e ch ctx sent).result with _ | _ | ex
    · have hc := runStep_completed hs s e ch ctx sent hres
      simp only [hres]
      refine ⟨?_, ?_⟩
      · simpa [cbCount_append, hc.1] using
          (ih (runStep hs s e ch ctx sent).channels
            (runStep hs s e ch ctx sent).context
            (runStep hs s e ch ctx sent).sent).1
      · intro hdone
        simpa [cbCount_append, hc.1] using
          (ih (runStep hs s e ch ctx sent).channels
            (runStep hs s e ch ctx sent).context
            (runStep hs s e ch ctx sent).sent).2 hdone
    · simpa [hres] using runStep_cbCount_le hs s e ch ctx sent
    · simpa [hres] using runStep_cbCount_le hs s e ch ctx sent

/-- A completed order loop leaves the response flag exactly as it found
it (in a fresh request: untouched). -/
theorem runLoop_completed_sent (hs : Handlers) (s : Suvidha) :
    ∀ (entries : List OrderRef) (ch : Channels) (ctx : Ctx) (sent : Bool),
      (runLoop hs s entries ch ctx sent).result = .completed →
        (runLoop hs s entries ch ctx sent).sent = sent := by
  intro entries
  induction entries with
  | nil => intro ch ctx sent _; simp [runLoop]
  | cons e rest ih =>
    intro ch ctx sent h
    simp only [runLoop] at h ⊢
    rcases hres : (runStep hs s e ch ctx sent).result with _ | _ | ex
    · have hc := runStep_completed hs s e ch ctx sent hres
      simp only [hres] at h ⊢
      rw [ih _ _ _ h, hc.2.1, hc.2.2.1]
    · simp [hres] at h
    · simp [hres] at h

/-- A completed order loop executed exactly the order entries, in order. -/
theorem runLoop_completed_trace (hs : Handlers) (s : Suvidha) :
    ∀ (entries : List OrderRef) (ch : Channels) (ctx : Ctx) (sent : Bool),
      (runLoop hs s entries ch ctx sent).result = .completed →
        (runLoop hs s entries ch ctx sent).trace = entries.map entryEvent := by
  intro entries
  induction entries with
  | nil => intro ch ctx sent _; simp [runLoop]
  | cons e rest ih =>
    intro ch ctx sent h
    simp only [runLoop] at h ⊢
    rcases hres : (runStep hs s e ch ctx sent).result with _ | _ | ex
    · have hc := runStep_completed hs s e ch ctx sent hres
      simp only [hres] at h ⊢
      rw [ih _ _ _ h, hc.2.2.2]
      simp
    · simp [hres] at h
    · simp [hres] at h

/-- Every event the order loop emits is a stage execution or a
validation-failure callback; in particular the terminal handler never
runs inside the loop. -/
theorem runLoop_loopEvent (hs : Handlers) (s : Suvidha) :
    ∀ (entries : List OrderRef) (ch : Channels) (ctx : Ctx) (sent : Bool),
      ∀ ev ∈ (runLoop hs s entries ch ctx sent).trace, loopEvent ev = true := by
  intro entries
  induction entries with
  | nil => intro ch ctx sent ev hev; simp [runLoop] at hev
  | cons e rest ih =>
    intro ch ctx sent ev hev
    simp only [runLoop] at hev
    rcases hres : (runStep hs s e ch ctx sent).result with _ | _ | ex
    · simp only [hres, List.mem_append] at hev
      rcases hev with hev | hev
      · exact runStep_loopEvent hs s e ch ctx sent ev hev
      · exact ih _ _ _ ev hev
    · rw [hres] at hev; exact runStep_loopEvent hs s e ch ctx sent ev hev
    · rw [hres] at hev; exact runStep_loopEvent hs s e ch ctx sent ev hev

/-- When the loop on an initial segment of the order list does not run to
completion, the remaining entries change nothing: the run over the whole
list is the run over the initial segment. -/
theorem runLoop_append_stop (hs : Handlers) (s : Suvidha) :
    ∀ (l1 l2 : List OrderRef) (ch : Channels) (ctx : Ctx) (sent : Bool),
      (runLoop hs s l1 ch ctx sent).result ≠ .completed →
        runLoop hs s (l1 ++ l2) ch ctx sent = runLoop hs s l1 ch ctx sent := by
  intro l1
  induction l1 with
  | nil => intro l2 ch ctx sent h; simp [runLoop] at h
  | cons e rest ih =>
    intro l2 ch ctx sent h
    simp only [runLoop, List.cons_append] at h ⊢
    rcases hres : (runStep hs s e ch ctx sent).result with _ | _ | ex
    · simp only [hres, List.append_eq] at h ⊢
      have heq := ih l2 (runStep hs s e ch ctx sent).channels
        (runStep hs s e ch ctx sent).context (runStep hs s e ch ctx sent).sent h
      rw [heq]
    · simp [hres]
    · simp [hres]

/-- The catch clause appends the single routed callback invocation to the
trace: onPostResponse when the response is initiated, onErr otherwise. -/
theorem catchClause_trace (hs : Handlers) (e : Val) (sent : Bool)
    (trace : List Event) :
    (catchClause hs e sent trace).trace =
      trace ++ [if sent then Event.cbPostResponse e else Event.cbErr e] := by
  unfold catchClause
  by_cases hcond : sent = true
  · simp only [hcond, if_true]
    rcases ht : (hs.onPostResponse e).throws with _ | e1 <;> simp [ht]
  · simp only [if_neg hcond]
    have : sent = false := by simpa using hcond
    simp only [this, if_false]
    rcases ht : (hs.onErr e).throws with _ | e1 <;> simp [ht]

/-- The catch clause resolves normally unless its own callback throws, in
which case that throw is uncaught. -/
theorem catchClause_final (hs : Handlers) (e : Val) (sent : Bool)
    (trace : List Event) :
    (catchClause hs e sent trace).final =
      (match (if sent then hs.onPostResponse e else hs.onErr e).throws with
        | some e1 => Final.uncaught e1
        | none => Final.normal) := by
  unfold catchClause
  by_cases hcond : sent = true
  · simp only [hcond, if_true]
    rcases ht : (hs.onPostResponse e).throws with _ | e1 <;> simp [ht]
  · simp only [if_neg hcond]
    have : sent = false := by simpa using hcond
    simp only [this, if_false]
    rcases ht : (hs.onErr e).throws with _ | e1 <;> simp [ht]

/-- The terminal handler never runs during the order loop. -/
theorem runTerminal_not_mem_loop (hs : Handlers) (s : Suvidha)
    (entries : List OrderRef) (ch : Channels) (ctx : Ctx) (sent : Bool) :
    Event.runTerminal ∉ (runLoop hs s entries ch ctx sent).trace := by
  intro hmem
  simpa [loopEvent] using runLoop_loopEvent hs s entries ch ctx sent _ hmem

/-- Callback invocations and the terminal-handler event contribute no
stage events: the stage executions of the whole request are exactly the
stage executions of the order loop. -/
theorem stageEvents_runRequest (hs : Handlers) (s : Suvidha) (h : HFun)
    (ch : Channels) :
    stageEvents (runRequest hs s h ch).trace =
      stageEvents (runLoop hs s s.order ch [] false).trace := by
  unfold runRequest
  rcases hres : (runLoop hs s s.order ch [] false).result with _ | _ | e <;>
    simp only [hres] <;>
    (repeat' split) <;>
    simp [catchClause_trace, stageEvents, List.filter_append] <;>
    split <;> simp

/-- Folding fluent calls over any pipeline appends exactly the declared
tags to the order list and registers exactly the use calls. -/
theorem foldl_applyStep (steps : List BuildStep) :
    ∀ s : Suvidha,
      (steps.foldl applyStep s).order =
          s.order ++ declaredRefs steps s.useHandlers.length ∧
        (steps.foldl applyStep s).useHandlers.length =
          s.useHandlers.length + countUses steps := by
  induction steps with
  | nil => intro s; simp [declaredRefs, countUses]
  | cons e rest ih =>
    intro s
    rcases e with p | p | p | m <;>
      simp only [List.foldl_cons, applyStep, declaredRefs, countUses]
    · have := ih (s.body p)
      simpa [Suvidha.body, List.append_assoc] using this
    · have := ih (s.query p)
      simpa [Suvidha.query, List.append_assoc] using this
    · have := ih (s.params p)
      simpa [Suvidha.params, List.append_assoc] using this
    · have := ih (s.use m)
      constructor
      · rw [this.1]
        simp [Suvidha.use, List.append_assoc]
      · rw [this.2]
        simp [Suvidha.use]
        omega

/-- The order list of a built pipeline is the declared tag sequence, and
the middleware list has one entry per use call. -/
theorem build_order (steps : List BuildStep) :
    (build steps).order = declaredRefs steps 0 ∧
      (build steps).useHandlers.length = countUses steps := by
  have := foldl_applyStep steps Suvidha.create
  simpa [build, Suvidha.create] using this

/-- Every middleware index declared from counter n lies between n and n
plus the number of use calls. -/
theorem mem_declaredRefs (steps : List BuildStep) :
    ∀ (n i : Nat), OrderRef.mw i ∈ declaredRefs steps n →
      n ≤ i ∧ i < n + countUses steps := by
  induction steps with
  | nil => intro n i h; simp [declaredRefs] at h
  | cons e rest ih =>
    intro n i h
    rcases e with p | p | p | m <;>
      simp only [declaredRefs, List.mem_cons] at h
    · rcases h with h | h
      · exact absurd h (by simp)
      · have := ih n i h; simp [countUses]; omega
    · rcases h with h | h
      · exact absurd h (by simp)
      · have := ih n i h; simp [countUses]; omega
    · rcases h with h | h
      · exact absurd h (by simp)
      · have := ih n i h; simp [countUses]; omega
    · rcases h with h | h
      · simp at h; simp [countUses]; omega
      · have := ih (n + 1) i h; simp [countUses]; omega

/-- Stage events map to themselves under the stage filter. -/
theorem stageEvents_map (l : List OrderRef) :
    stageEvents (l.map entryEvent) = l.map entryEvent := by
  unfold stageEvents
  rw [List.filter_eq_self]
  intro a ha
  rcases List.mem_map.mp ha with ⟨r, _, hr⟩
  rcases r with c | i <;> simp [← hr, entryEvent, isStageEvent]

/-- C2: if after any stage (validation step or middleware) the response
has been initiated, then no subsequent order entries are executed and the
terminal handler is never invoked for that request. -/
theorem claim_C2_short_circuit (hs : Handlers) (s : Suvidha) (h : HFun)
    (ch : Channels) (k : Nat) (hk : k < s.order.length)
    (hsent : (runLoop hs s (s.order.take (k + 1)) ch [] false).sent = true) :
    stageEvents (runRequest hs s h ch).trace =
      stageEvents (runLoop hs s (s.order.take (k + 1)) ch [] false).trace ∧
      Event.runTerminal ∉ (runRequest hs s h ch).trace := by
  have hnc : (runLoop hs s (s.order.take (k + 1)) ch [] false).result ≠
      LoopResult.completed := by
    intro hcomp
    have hsf := runLoop_completed_sent hs s _ ch [] false hcomp
    rw [hsent] at hsf
    exact absurd hsf (by simp)
  have hfull : runLoop hs s s.order ch [] false =
      runLoop hs s (s.order.take (k + 1)) ch [] false := by
    conv_lhs => rw [← List.take_append_drop (k + 1) s.order]
    exact runLoop_append_stop hs s _ _ ch [] false hnc
  refine ⟨?_, ?_⟩
  · rw [stageEvents_runRequest, hfull]
  · simp only [runRequest]
    rw [hfull]
    rcases hres : (runLoop hs s (s.order.take (k + 1)) ch [] false).result
      with _ | _ | e
    · exact absurd hres hnc
    · simp only [hres]
      exact runTerminal_not_mem_loop hs s _ ch [] false
    · simp only [hres]
      rw [catchClause_trace]
      simp only [List.mem_append, not_or]
      refine ⟨runTerminal_not_mem_loop hs s _ ch [] false, ?_⟩
      split <;> simp

/-- Witness for C2 on a closed pipeline: the first middleware writes the
response, and the second middleware and the terminal handler are not
executed. -/
theorem claim_C2_short_circuit_witness :
    (runLoop hsQuiet sC2 (sC2.order.take 1) chZero [] false).sent = true ∧
      (stageEvents (runRequest hsQuiet sC2 hReturn1 chZero).trace =
          stageEvents (runLoop hsQuiet sC2 (sC2.order.take 1) chZero [] false).trace ∧
        Event.runTerminal ∉ (runRequest hsQuiet sC2 hReturn1 chZero).trace) :=
  ⟨by decide,
    claim_C2_short_circuit hsQuiet sC2 hReturn1 chZero 0 (by decide) (by decide)⟩

/-- C3: for a pipeline built by any interleaving of body, query, params
and use calls, when the run reaches the terminal handler the executed
stage order equals the declaration order of the fluent calls exactly. -/
theorem claim_C3_declaration_order (steps : List BuildStep) (hs : Handlers)
    (h : HFun) (ch : Channels)
    (hc : (runLoop hs (build steps) (build steps).order ch [] false).result =
      LoopResult.completed) :
    stageEvents (runRequest hs (build steps) h ch).trace =
      (declaredRefs steps 0).map entryEvent := by
  rw [stageEvents_runRequest]
  rw [runLoop_completed_trace hs (build steps) (build steps).order ch [] false hc]
  rw [(build_order steps).1]
  exact stageEvents_map _

/-- Witness for C3: interleaving body, use, params, use is executed in
exactly that order. -/
theorem claim_C3_declaration_order_witness :
    (runLoop hsQuiet (build stepsC3) (build stepsC3).order chZero [] false).result =
        LoopResult.completed ∧
      stageEvents (runRequest hsQuiet (build stepsC3) hReturn1 chZero).trace =
        (declaredRefs stepsC3 0).map entryEvent :=
  ⟨by decide,
    claim_C3_declaration_order stepsC3 hsQuiet hReturn1 chZero (by decide)⟩

/-- C10: in every pipeline built solely through the fluent builder, every
numeric order entry indexes a registered middleware, so the lookup
useHandlers at that index during execution is always defined. -/
theorem claim_C10_order_index_safe (steps : List BuildStep) (i : Nat)
    (hmem : OrderRef.mw i ∈ (build steps).order) :
    i < (build steps).useHandlers.length ∧
      ((build steps).useHandlers.get? i).isSome = true := by
  have hb := build_order steps
  rw [hb.1] at hmem
  have hrange := mem_declaredRefs steps 0 i hmem
  have hlt : i < (build steps).useHandlers.length := by
    rw [hb.2]; omega
  refine ⟨hlt, ?_⟩
  rcases hg : (build steps).useHandlers.get? i with _ | f
  · rw [List.get?_eq_none] at hg
    omega
  · rfl

/-- Witness for C10 on a closed call sequence with two middleware
registrations around a validation call. -/
theorem claim_C10_order_index_safe_witness :
    OrderRef.mw 1 ∈ (build stepsC10).order ∧
      (1 < (build stepsC10).useHandlers.length ∧
        ((build stepsC10).useHandlers.get? 1).isSome = true) :=
  ⟨by decide, claim_C10_order_index_safe stepsC10 1 (by decide)⟩

/-- The catch clause invokes exactly one callback. -/
theorem catchClause_cbCount (hs : Handlers) (e : Val) (sent : Bool)
    (trace : List Event) :
    cbCount (catchClause hs e sent trace).trace = cbCount trace + 1 := by
  rw [catchClause_trace, cbCount_append]
  split <;> simp

/-- C1 counterexample: the sum of callback invocations is not always 1.
A middleware that completes the response short-circuits the run with zero
callback invocations, and a failing validation whose onSchemaErr neither
writes nor throws leads to both onSchemaErr and onErr being invoked. -/
theorem claim_C1_counterexample :
    cbCount (runRequest hsQuiet sC2 hReturn1 chZero).trace = 0 ∧
      cbCount (runRequest hsQuiet sZodFail hReturn1 chZero).trace = 2 := by
  decide

/-- C1 as amended: across the four lifecycle callbacks at most two
invocations ever happen, and exactly one happens on every normal run
(no callback invoked during the loop, no short-circuit, and the
post-handler dispatch neither skipped for an initiated response with an
undefined return nor thrown back into the catch clause). -/
theorem claim_C1_dispatch_amended (hs : Handlers) (s : Suvidha) (h : HFun)
    (ch : Channels) :
    cbCount (runRequest hs s h ch).trace ≤ 2 ∧
      (normalRun hs s h ch = true →
        cbCount (runRequest hs s h ch).trace = 1) := by
  have hcb := runLoop_cbCount hs s s.order ch [] false
  constructor
  · simp only [runRequest]
    rcases hres : (runLoop hs s s.order ch [] false).result with _ | _ | e
    · have h0 := hcb.2 hres
      simp only [hres]
      (repeat' split) <;>
        simp [catchClause_cbCount, cbCount_append, h0]
    · simp only [hres]
      have hle := hcb.1
      omega
    · simp only [hres]
      rw [catchClause_cbCount]
      have hle := hcb.1
      omega
  · intro hn
    simp only [normalRun, Bool.and_eq_true, beq_iff_eq] at hn
    obtain ⟨h0, h2⟩ := hn
    simp only [runRequest]
    rcases hres : (runLoop hs s s.order ch [] false).result with _ | _ | e
    · have hsf := runLoop_completed_sent hs s s.order ch [] false hres
      simp only [hres] at h2
      simp only [postLoopNormal] at h2
      simp only [hres]
      rcases hr : (h (runLoop hs s s.order ch [] false).channels
          (runLoop hs s s.order ch [] false).context).result with e | v
      · simp only [hr]
        simp [catchClause_cbCount, cbCount_append, h0]
      · simp only [hr] at h2
        rcases hw : (h (runLoop hs s s.order ch [] false).channels
            (runLoop hs s s.order ch [] false).context).writes with _ | _
        · simp [hw] at h2
          simp [hr, hw, hsf, h2, cbCount_append, h0]
        · simp [hw, Bool.and_eq_true, bne_iff_ne, beq_iff_eq] at h2
          simp [hr, hw, hsf, h2.1, h2.2, cbCount_append, h0]
    · simp only [hres] at h2
      exact absurd h2 (by simp)
    · simp only [hres]
      rw [catchClause_cbCount]
      omega
/-- Context lookup over an append: keys of the later part win. -/
theorem ctxGet_append (a b : Ctx) (k : String) :
    ctxGet (a ++ b) k =
      (match ctxGet b k with
        | some v => some v
        | none => ctxGet a k) := by
  induction a with
  | nil =>
    simp only [List.nil_append]
    rcases hb : ctxGet b k with _ | w <;> simp [ctxGet, hb]
  | cons kv rest ih =>
    obtain ⟨k0, v0⟩ := kv
    rcases hb : ctxGet b k with _ | w <;>
      simp only [List.cons_append, List.append_eq, ctxGet, ih, hb]

/-- Lookup in the concatenation of partial contexts is the last-wins
lookup over the parts. -/
theorem ctxGet_flatten (parts : List Ctx) (k : String) :
    ctxGet parts.flatten k = lastWins parts k := by
  induction parts with
  | nil => rfl
  | cons p rest ih =>
    simp only [List.flatten_cons, lastWins, ctxGet_append, ih]

/-- Folding fluent calls appends exactly the use-call middlewares to the
middleware list. -/
theorem foldl_applyStep_uses (steps : List BuildStep) :
    ∀ s : Suvidha,
      (steps.foldl applyStep s).useHandlers =
        s.useHandlers ++ registeredMws steps := by
  induction steps with
  | nil => intro s; simp [registeredMws]
  | cons e rest ih =>
    intro s
    rcases e with p | p | p | m <;>
      simp only [List.foldl_cons, applyStep, registeredMws] <;>
      rw [ih] <;>
      simp [Suvidha.body, Suvidha.query, Suvidha.params, Suvidha.use]

/-- The declared tags of an all-use call sequence are consecutive
middleware indices. -/
theorem declaredRefs_all_use (parts : List Ctx) :
    ∀ n : Nat,
      declaredRefs (parts.map fun p => BuildStep.use (constMw p)) n =
        (List.range' n parts.length).map OrderRef.mw := by
  induction parts with
  | nil => intro n; simp [declaredRefs]
  | cons p rest ih =>
    intro n
    simp only [List.map_cons, declaredRefs, List.length_cons, List.range'_succ,
      ih]

/-- The registered middlewares of an all-use call sequence are the
constant middlewares of the parts. -/
theorem registeredMws_all_use (parts : List Ctx) :
    registeredMws (parts.map fun p => BuildStep.use (constMw p)) =
      parts.map constMw := by
  induction parts with
  | nil => rfl
  | cons p rest ih => simp only [List.map_cons, registeredMws, ih]

/-- Running consecutive middleware entries over constant middlewares
completes with every partial context appended in order. -/
theorem runLoop_all_mw (hs : Handlers) (s : Suvidha) (parts : List Ctx)
    (hu : s.useHandlers = parts.map constMw) :
    ∀ (k i : Nat), i + k = parts.length →
      ∀ (ch : Channels) (ctx : Ctx),
        (runLoop hs s ((List.range' i k).map OrderRef.mw) ch ctx false).result =
            LoopResult.completed ∧
          (runLoop hs s ((List.range' i k).map OrderRef.mw) ch ctx false).context =
            ctx ++ ((parts.drop i).flatten) := by
  intro k
  induction k with
  | zero =>
    intro i hik ch ctx
    have : parts.drop i = [] := by
      apply List.drop_eq_nil_of_le
      omega
    simp [runLoop, this]
  | succ k ih =>
    intro i hik ch ctx
    have hilt : i < parts.length := by omega
    have hget : s.useHandlers[i]? = some (constMw parts[i]) := by
      rw [hu, List.getElem?_map, List.getElem?_eq_getElem hilt]
      rfl
    have hstep : runStep hs s (OrderRef.mw i) ch ctx false =
        ⟨[.runMw i], false, ch, ctx ++ parts[i], .completed⟩ := by
      simp [runStep, hget, constMw]
    have hdrop : parts.drop i = parts[i] :: parts.drop (i + 1) :=
      List.drop_eq_getElem_cons hilt
    simp only [List.range'_succ, List.map_cons, runLoop, hstep]
    have hrec := ih (i + 1) (by omega) ch (ctx ++ parts[i])
    refine ⟨hrec.1, ?_⟩
    rw [hrec.2, hdrop, List.flatten_cons, ← List.append_assoc]

/-- A success-completion callback event never originates in the loop. -/
theorem cbComplete_not_mem_loop (hs : Handlers) (s : Suvidha)
    (entries : List OrderRef) (ch : Channels) (ctx : Ctx) (sent : Bool)
    (w : Val) :
    Event.cbComplete w ∉ (runLoop hs s entries ch ctx sent).trace := by
  intro hmem
  simpa [loopEvent] using runLoop_loopEvent hs s entries ch ctx sent _ hmem

/-- An error callback event never originates in the loop. -/
theorem cbErr_not_mem_loop (hs : Handlers) (s : Suvidha)
    (entries : List OrderRef) (ch : Channels) (ctx : Ctx) (sent : Bool)
    (w : Val) :
    Event.cbErr w ∉ (runLoop hs s entries ch ctx sent).trace := by
  intro hmem
  simpa [loopEvent] using runLoop_loopEvent hs s entries ch ctx sent _ hmem

/-- When the order loop completes, the terminal handler is invoked. -/
theorem runTerminal_mem_of_completed (hs : Handlers) (s : Suvidha)
    (h : HFun) (ch : Channels)
    (hc : (runLoop hs s s.order ch [] false).result = LoopResult.completed) :
    Event.runTerminal ∈ (runRequest hs s h ch).trace := by
  simp only [runRequest, hc]
  (repeat' split) <;> simp [catchClause_trace, List.mem_append]

/-- C4: the per-request context starts empty and each middleware's
returned partial object is shallow-merged into it, later keys winning and
unrelated keys persisting; the loop completes, the terminal handler is
invoked on the accumulated context, and for the middleware sequence
producing a:1 then b:2 then a:3 the accumulated context maps a to 3 and
b to 2. -/
theorem claim_C4_context_accumulation (hs : Handlers) (parts : List Ctx)
    (h : HFun) (ch : Channels) :
    (runLoop hs (mwPipeline parts) (mwPipeline parts).order ch [] false).result =
        LoopResult.completed ∧
      (∀ k : String,
        ctxGet (runLoop hs (mwPipeline parts)
            (mwPipeline parts).order ch [] false).context k =
          lastWins parts k) ∧
      Event.runTerminal ∈ (runRequest hs (mwPipeline parts) h ch).trace ∧
      (ctxGet (runLoop hsQuiet (mwPipeline partsExample)
            (mwPipeline partsExample).order chZero [] false).context "a" =
          some (.num 3) ∧
        ctxGet (runLoop hsQuiet (mwPipeline partsExample)
            (mwPipeline partsExample).order chZero [] false).context "b" =
          some (.num 2)) := by
  have horder : (mwPipeline parts).order =
      (List.range' 0 parts.length).map OrderRef.mw := by
    have hb := (build_order (parts.map fun p => BuildStep.use (constMw p))).1
    rw [mwPipeline, hb, declaredRefs_all_use]
  have huse : (mwPipeline parts).useHandlers = parts.map constMw := by
    rw [mwPipeline, build, foldl_applyStep_uses]
    simp [Suvidha.create, registeredMws_all_use]
  have hrun := runLoop_all_mw hs (mwPipeline parts) parts huse parts.length 0
    (by omega) ch []
  have hcomp : (runLoop hs (mwPipeline parts)
      (mwPipeline parts).order ch [] false).result = LoopResult.completed := by
    rw [horder]; exact hrun.1
  refine ⟨hcomp, ?_, ?_, by decide, by decide⟩
  · intro k
    rw [horder, hrun.2]
    simp [ctxGet_flatten]
  · exact runTerminal_mem_of_completed hs (mwPipeline parts) h ch hcomp

/-- C5: when the run reaches the terminal handler and the handler
initiates the response, a defined returned value or a thrown value goes
to onPostResponse, and onComplete and onErr are not invoked. -/
theorem claim_C5_post_response (hs : Handlers) (s : Suvidha) (h : HFun)
    (ch : Channels)
    (hc : (runLoop hs s s.order ch [] false).result = LoopResult.completed) :
    (∀ v,
      (h (runLoop hs s s.order ch [] false).channels
          (runLoop hs s s.order ch [] false).context).result = Except.ok v →
      (h (runLoop hs s s.order ch [] false).channels
          (runLoop hs s s.order ch [] false).context).writes = true →
      v ≠ Val.undefined →
        Event.cbPostResponse v ∈ (runRequest hs s h ch).trace ∧
          (∀ w, Event.cbComplete w ∉ (runRequest hs s h ch).trace) ∧
          (∀ w, Event.cbErr w ∉ (runRequest hs s h ch).trace)) ∧
    (∀ e,
      (h (runLoop hs s s.order ch [] false).channels
          (runLoop hs s s.order ch [] false).context).result = Except.error e →
      (h (runLoop hs s s.order ch [] false).channels
          (runLoop hs s s.order ch [] false).context).writes = true →
        Event.cbPostResponse e ∈ (runRequest hs s h ch).trace ∧
          (∀ w, Event.cbComplete w ∉ (runRequest hs s h ch).trace) ∧
          (∀ w, Event.cbErr w ∉ (runRequest hs s h ch).trace)) := by
  have hsent := runLoop_completed_sent hs s s.order ch [] false hc
  constructor
  · intro v hr hw hv
    rcases ht : (hs.onPostResponse v).throws with _ | e1
    · have htr : (runRequest hs s h ch).trace =
          (runLoop hs s s.order ch [] false).trace ++ [Event.runTerminal] ++
            [Event.cbPostResponse v] := by
        simp only [runRequest, hc, hr, hw, hsent, ht]
        simp [hv]
      refine ⟨?_, ?_, ?_⟩
      · rw [htr]; simp
      · intro w
        have h1 := cbComplete_not_mem_loop hs s s.order ch [] false w
        rw [htr]; simp [List.mem_append, h1]
      · intro w
        have h1 := cbErr_not_mem_loop hs s s.order ch [] false w
        rw [htr]; simp [List.mem_append, h1]
    · have htr : (runRequest hs s h ch).trace =
          (runLoop hs s s.order ch [] false).trace ++ [Event.runTerminal] ++
            [Event.cbPostResponse v] ++ [Event.cbPostResponse e1] := by
        simp only [runRequest, hc, hr, hw, hsent, ht]
        simp [hv, catchClause_trace]
      refine ⟨?_, ?_, ?_⟩
      · rw [htr]; simp
      · intro w
        have h1 := cbComplete_not_mem_loop hs s s.order ch [] false w
        rw [htr]; simp [List.mem_append, h1]
      · intro w
        have h1 := cbErr_not_mem_loop hs s s.order ch [] false w
        rw [htr]; simp [List.mem_append, h1]
  · intro e hr hw
    have htr : (runRequest hs s h ch).trace =
        (runLoop hs s s.order ch [] false).trace ++ [Event.runTerminal] ++
          [Event.cbPostResponse e] := by
      simp only [runRequest, hc, hr, hw, hsent]
      simp [catchClause_trace]
    refine ⟨?_, ?_, ?_⟩
    · rw [htr]; simp
    · intro w
      have h1 := cbComplete_not_mem_loop hs s s.order ch [] false w
      rw [htr]; simp [List.mem_append, h1]
    · intro w
      have h1 := cbErr_not_mem_loop hs s s.order ch [] false w
      rw [htr]; simp [List.mem_append, h1]

/-- Witness for C5 on the empty pipeline: a handler that writes and
returns 2 reaches onPostResponse with 2, and one that writes and throws
reaches onPostResponse with the thrown value. -/
theorem claim_C5_post_response_witness :
    (runLoop hsQuiet (build []) (build []).order chZero [] false).result =
        LoopResult.completed ∧
      Event.cbPostResponse (.num 2) ∈
        (runRequest hsQuiet (build []) hWriteReturn2 chZero).trace ∧
      Event.cbPostResponse (.str "late") ∈
        (runRequest hsQuiet (build []) hWriteThrow chZero).trace :=
  ⟨by decide,
    ((claim_C5_post_response hsQuiet (build []) hWriteReturn2 chZero
        (by decide)).1 (.num 2) rfl rfl (by decide)).1,
    ((claim_C5_post_response hsQuiet (build []) hWriteThrow chZero
        (by decide)).2 (.str "late") rfl rfl).1⟩

/-- Witness for the amended C1: on a normal run (interleaved validations
and middlewares, handler returning without writing) exactly one callback
fires. -/
theorem claim_C1_dispatch_amended_witness :
    normalRun hsQuiet (build stepsC3) hReturn1 chZero = true ∧
      cbCount (runRequest hsQuiet (build stepsC3) hReturn1 chZero).trace = 1 :=
  ⟨by decide,
    (claim_C1_dispatch_amended hsQuiet (build stepsC3) hReturn1 chZero).2
      (by decide)⟩

/-- C6: when a validation step fails with a ZodError, onSchemaErr is
invoked with the original structured error untransformed, and if that
callback neither initiates the response nor throws, the orchestrator
re-throws that same error instead of continuing with the remaining
entries. -/
theorem claim_C6_validation_failure (hs : Handlers) (s : Suvidha)
    (c : DataRef) (rest : List OrderRef) (ch : Channels) (ctx : Ctx)
    (e : Val)
    (hfail : s.schemaMap c (ch c) = Except.error e)
    (hzod : isZodError e = true)
    (hnw : (hs.onSchemaErr e).writes = false)
    (hnt : (hs.onSchemaErr e).throws = none) :
    (runLoop hs s (.data c :: rest) ch ctx false).trace =
        [.validate c, .cbSchemaErr e] ∧
      (runLoop hs s (.data c :: rest) ch ctx false).result =
        LoopResult.threw e := by
  simp only [runLoop, runStep, Suvidha.parse, hfail, hzod, hnw, hnt]
  simp

/-- Witness for C6: a failing body validation with a quiet onSchemaErr
re-throws the ZodError and the following middleware never runs. -/
theorem claim_C6_validation_failure_witness :
    (sZodFail.schemaMap .body (chZero .body) =
        Except.error (.zodError 0) ∧
      (hsQuiet.onSchemaErr (.zodError 0)).writes = false) ∧
      ((runLoop hsQuiet sZodFail [.data .body, .mw 0] chZero [] false).trace =
          [.validate .body, .cbSchemaErr (.zodError 0)] ∧
        (runLoop hsQuiet sZodFail [.data .body, .mw 0] chZero [] false).result =
          LoopResult.threw (.zodError 0)) :=
  ⟨⟨rfl, rfl⟩,
    claim_C6_validation_failure hsQuiet sZodFail .body [.mw 0] chZero []
      (.zodError 0) rfl rfl rfl rfl⟩

/-- C7: when a validation step throws a value that is not a ZodError, the
validation-failure callback is never invoked; instead assertZodError
raises a distinct internal Error, which is itself not a ZodError. -/
theorem claim_C7_internal_contract (hs : Handlers) (s : Suvidha)
    (c : DataRef) (raw : Val) (sent : Bool) (e : Val)
    (hfail : s.schemaMap c raw = Except.error e)
    (hnz : isZodError e = false) :
    (s.parse hs c raw sent).trace = [.validate c] ∧
      (∀ v, Event.cbSchemaErr v ∉ (s.parse hs c raw sent).trace) ∧
      (s.parse hs c raw sent).thrown =
        some (Val.jsError (internalContractMsg e)) ∧
      isZodError (Val.jsError (internalContractMsg e)) = false := by
  simp only [Suvidha.parse, hfail, hnz]
  simp [internalContractErr, isZodError]

/-- Witness for C7: a validator throwing a plain string value leads to
the internal contract Error, with no onSchemaErr invocation. -/
theorem claim_C7_internal_contract_witness :
    sNonZod.schemaMap .body (chZero .body) =
        Except.error (.str "not a zod error") ∧
      ((sNonZod.parse hsQuiet .body (chZero .body) false).trace =
          [.validate .body] ∧
        (∀ v, Event.cbSchemaErr v ∉
          (sNonZod.parse hsQuiet .body (chZero .body) false).trace) ∧
        (sNonZod.parse hsQuiet .body (chZero .body) false).thrown =
          some (Val.jsError (internalContractMsg (.str "not a zod error"))) ∧
        isZodError (Val.jsError (internalContractMsg (.str "not a zod error"))) =
          false) :=
  ⟨rfl,
    claim_C7_internal_contract hsQuiet sNonZod .body (chZero .body) false
      (.str "not a zod error") rfl rfl⟩

/-- C8 counterexample: the error thrown by the onSchemaErr callback is
caught by the orchestrator and routed to onErr, and nothing propagates
outward, contradicting the claim that callback errors are uncaught. -/
theorem claim_C8_counterexample :
    (runRequest hsSchemaThrows sZodFail hReturn1 chZero).trace =
        [.validate .body, .cbSchemaErr (.zodError 0), .cbErr (.str "boom")] ∧
      (runRequest hsSchemaThrows sZodFail hReturn1 chZero).final =
        Final.normal := by
  decide

/-- C8 as amended: an error thrown by onSchemaErr (without writing) is
caught by the handler's catch clause and routed to onErr; only errors
thrown by the callback invoked inside the catch clause itself (onErr, or
onPostResponse for an initiated response) propagate outward uncaught. -/
theorem claim_C8_callback_errors_amended (hs : Handlers) (s : Suvidha)
    (h : HFun) (ch : Channels) :
    (∀ c rest e e1,
      s.order = OrderRef.data c :: rest →
      s.schemaMap c (ch c) = Except.error e →
      isZodError e = true →
      (hs.onSchemaErr e).writes = false →
      (hs.onSchemaErr e).throws = some e1 →
        (runRequest hs s h ch).trace =
            [.validate c, .cbSchemaErr e, .cbErr e1] ∧
          (runRequest hs s h ch).final =
            (match (hs.onErr e1).throws with
              | some e2 => Final.uncaught e2
              | none => Final.normal)) ∧
    (∀ e e1,
      (runLoop hs s s.order ch [] false).result = LoopResult.threw e →
      (runLoop hs s s.order ch [] false).sent = false →
      (hs.onErr e).throws = some e1 →
        (runRequest hs s h ch).final = Final.uncaught e1) := by
  constructor
  · intro c rest e e1 hord hfail hzod hnw hnt
    have htrace : (runLoop hs s s.order ch [] false).trace =
        [.validate c, .cbSchemaErr e] := by
      rw [hord]
      simp only [runLoop, runStep, Suvidha.parse, hfail, hzod, hnw, hnt]
      simp
    have hres : (runLoop hs s s.order ch [] false).result =
        LoopResult.threw e1 := by
      rw [hord]
      simp only [runLoop, runStep, Suvidha.parse, hfail, hzod, hnw, hnt]
      simp
    have hsent : (runLoop hs s s.order ch [] false).sent = false := by
      rw [hord]
      simp only [runLoop, runStep, Suvidha.parse, hfail, hzod, hnw, hnt]
      simp
    constructor
    · simp only [runRequest, hres]
      rw [catchClause_trace, hsent, htrace]
      simp
    · simp only [runRequest, hres]
      rw [catchClause_final, hsent]
      simp
  · intro e e1 hthrew hsent hthrow
    simp only [runRequest, hthrew]
    rw [catchClause_final, hsent]
    simp [hthrow]

/-- Witness for the amended C8: with the default-style throwing
onSchemaErr the thrown value reaches onErr and the run resolves; with a
throwing onErr the run is rejected with that error. -/
theorem claim_C8_callback_errors_amended_witness :
    ((runRequest hsSchemaThrows sZodFail hWriteUndef chZero).trace =
        [.validate .body, .cbSchemaErr (.zodError 0), .cbErr (.str "boom")] ∧
      (runRequest hsSchemaThrows sZodFail hWriteUndef chZero).final =
        Final.normal) ∧
      (runRequest hsErrThrows sZodFail hWriteUndef chZero).final =
        Final.uncaught (.str "bang") :=
  ⟨(claim_C8_callback_errors_amended hsSchemaThrows sZodFail hWriteUndef
      chZero).1 .body [.mw 0] (.zodError 0) (.str "boom")
      (by decide) rfl rfl rfl rfl,
    (claim_C8_callback_errors_amended hsErrThrows sZodFail hWriteUndef
      chZero).2 (.zodError 0) (.str "bang") (by decide) (by decide) rfl⟩

end SuvidhaModel

namespace DefaultHandlersModel

/-- Every response emitted through defaultFormatter by the current
default handlers carries the envelope status category determined by its
numeric status: success from 100 below 400, fail from 400 below 500,
error from 500 upward. -/
theorem defaultFormatter_status_mapping (v : DVal) (s : Nat) (env : Envelope)
    (hemit : onErrEmit v = some (s, env) ∨ onCompleteEmit v = some (s, env)) :
    (100 ≤ s → s < 400 → env.status = RStatus.success) ∧
      (400 ≤ s → s < 500 → env.status = RStatus.fail) ∧
      (500 ≤ s → env.status = RStatus.error) := by
  have hst : env.status = mapToStatus s := by
    rcases hemit with hemit | hemit <;>
      rcases v with ⟨st, b, m⟩ | ⟨st, b, m⟩ | p | _ | _ <;>
      simp only [onErrEmit, onCompleteEmit, Option.some.injEq,
        Prod.mk.injEq, reduceCtorEq] at hemit <;>
      obtain ⟨h1, h2⟩ := hemit <;>
      subst h1 <;>
      rw [← h2] <;>
      rfl
  rw [hst]
  refine ⟨?_, ?_, ?_⟩
  · intro h1 h2
    unfold mapToStatus
    rw [if_neg (by omega), if_neg (by omega)]
  · intro h1 h2
    unfold mapToStatus
    rw [if_pos ⟨h1, h2⟩]
  · intro h1
    unfold mapToStatus
    rw [if_neg (by omega), if_pos h1]

/-- Instance of the formatter mapping: an Http.End error outcome with
status 404 is emitted with envelope status fail. -/
theorem defaultFormatter_status_mapping_inst :
    (onErrEmit (DVal.httpEnd 404 "nf" "m") =
        some (404, defaultFormatter 404 (some "nf") "m") ∨
      onCompleteEmit (DVal.httpEnd 404 "nf" "m") =
        some (404, defaultFormatter 404 (some "nf") "m")) ∧
      ((100 ≤ 404 → 404 < 400 →
          (defaultFormatter 404 (some "nf") "m").status = RStatus.success) ∧
        (400 ≤ 404 → 404 < 500 →
          (defaultFormatter 404 (some "nf") "m").status = RStatus.fail) ∧
        (500 ≤ 404 →
          (defaultFormatter 404 (some "nf") "m").status = RStatus.error)) :=
  ⟨Or.inl rfl,
    defaultFormatter_status_mapping (DVal.httpEnd 404 "nf" "m") 404
      (defaultFormatter 404 (some "nf") "m") (Or.inl rfl)⟩

/-- C9: the snapshot DefaultHandlers.onErr contradicts the claimed
status-category mapping at concrete inputs: an HttpErr with status 404 is
emitted with envelope status error where the claim, the repository's
defaultFormatter and its test helpers give fail, and the non-HttpErr
fallback is emitted at 500 with envelope status fail where the claim
gives error. -/
theorem claim_C9_legacy_onErr_eval :
    legacyOnErrEmit (DVal.httpEnd 404 "nf" "") =
        some (404, ⟨RStatus.error, some "nf", ""⟩) ∧
      legacyOnErrEmit (DVal.prim "oops") =
        some (500, ⟨RStatus.fail, some "Internal Server Error", ""⟩) ∧
      (defaultFormatter 404 (some "nf") "").status = RStatus.fail ∧
      (defaultFormatter 500 (some "Internal Server Error") "").status =
        RStatus.error := by
  decide

end DefaultHandlersModel
